import Mathlib

/-!
Verification development for `pycalphad/core/minimizer.pyx`, the two-step block
Newton iteration for multi-phase chemical equilibrium (Sundman 2015, Eq. 41/44).

The Cython source is shallowly embedded over `ℚ`:
  * numpy vectors become `List ℚ`, matrices become `List (List ℚ)` (row major);
  * in-place writes become functional updates (`List.set`), threaded by folds;
  * the external numpy linear-algebra routines (`np.linalg.solve`, `inv`,
    `lstsq`) are abstract function parameters bundled in `Oracles` — the solver
    never inspects them, it only applies them;
  * the external `PhaseRecord` evaluation callbacks (energy/grad/hess/mass/
    constraint functions) are fields of a `PhaseRecord` structure;
  * IEEE-float hazards (division by zero producing `inf`/`nan`) are modelled
    separately with the small `FP` scalar type at the end of the definitions,
    used only for the change-tracking expressions where they matter.

Rational division by zero yields `0` in Lean; all theorems below that depend on
a division are either independent of its value or use the `FP` model.
-/

namespace Minimizer

/- Batteries marks the `Rat` field operations `@[irreducible]`; restore the
default reducibility so that concrete runs of the embedded solver can be
evaluated by `decide`. -/
set_option allowUnsafeReducibility true in
attribute [semireducible] Rat.mul Rat.add Rat.sub Rat.inv

/-! ### Vector / matrix helpers over `List ℚ` -/

/-- Read entry `i` of a vector, numpy-style out-of-range reads only occur on
ill-formed inputs; the default is `0`. -/
def getV (v : List ℚ) (i : ℕ) : ℚ := v.getD i 0

/-- Write entry `i` of a vector (`v[i] = q`). -/
def setV (v : List ℚ) (i : ℕ) (q : ℚ) : List ℚ := v.set i q

/-- In-place accumulate on a vector entry (`v[i] += q`). -/
def addV (v : List ℚ) (i : ℕ) (q : ℚ) : List ℚ := v.set i (getV v i + q)

/-- Read entry `(i, j)` of a row-major matrix. -/
def get2 (m : List (List ℚ)) (i j : ℕ) : ℚ := (m.getD i []).getD j 0

/-- Write entry `(i, j)` of a row-major matrix (`m[i, j] = q`). -/
def set2 (m : List (List ℚ)) (i j : ℕ) (q : ℚ) : List (List ℚ) :=
  m.set i ((m.getD i []).set j q)

/-- In-place accumulate on a matrix entry (`m[i, j] += q`). -/
def add2 (m : List (List ℚ)) (i j : ℕ) (q : ℚ) : List (List ℚ) :=
  set2 m i j (get2 m i j + q)

/-- `np.abs(v).max()` for the nonempty vectors the solver feeds it (entries of
`v.map abs` are nonnegative, so folding `max` from `0` agrees with numpy's max
on any nonempty input). -/
def maxAbs (v : List ℚ) : ℚ := (v.map (fun q => |q|)).foldl max 0

/-- Number of rows of a row-major matrix (`m.shape[0]`). -/
def rowsOf (m : List (List ℚ)) : ℕ := m.length

/-- Number of columns of a row-major matrix (`m.shape[1]`). -/
def colsOf (m : List (List ℚ)) : ℕ := (m.headD []).length

/-- All-zero matrix, `np.zeros((r, c))`. -/
def zeros2 (r c : ℕ) : List (List ℚ) := List.replicate r (List.replicate c 0)

/-! ### External data model -/

/-- The external `PhaseRecord` evaluation capability set (spec §6): energy,
gradient, Hessian, per-component mass and mass gradient, internal constraint
residuals and Jacobian, plus the two size scalars.  The callbacks are abstract:
the solver only applies them to dof vectors. -/
structure PhaseRecord where
  phase_dof : ℕ
  num_internal_cons : ℕ
  obj : List ℚ → ℚ
  grad : List ℚ → List ℚ
  hess : List ℚ → List (List ℚ)
  mass_obj : List ℚ → ℕ → ℚ
  mass_grad : List ℚ → ℕ → List ℚ
  internal_cons_func : List ℚ → List ℚ
  internal_cons_jac : List ℚ → List (List ℚ)

/-- A trivial phase record, used only as the `getD` default for the
(unreachable on well-formed input) out-of-range compset lookup. -/
def trivialPhaseRecord : PhaseRecord :=
  ⟨0, 0, fun _ => 0, fun _ => [], fun _ => [], fun _ _ => 0, fun _ _ => [],
    fun _ => [], fun _ => []⟩

/-- A `CompositionSet`: a phase record handle plus the caller-provided initial
phase amount `NP` and dof vector (spec §6). -/
structure CompositionSet where
  phase_record : PhaseRecord
  NP : ℚ
  dof : List ℚ

instance : Inhabited CompositionSet := ⟨⟨trivialPhaseRecord, 0, []⟩⟩

/-- The external dense linear-algebra routines used by the solver, abstracted:
`linsolve` is `np.linalg.solve`, `matinv` is `np.linalg.inv`, and `lstsq` is
`x ↦ np.linalg.lstsq(A, b, rcond=1e-21)[0]`. -/
structure Oracles where
  linsolve : List (List ℚ) → List ℚ → List ℚ
  matinv : List (List ℚ) → List (List ℚ)
  lstsq : List (List ℚ) → List ℚ → List ℚ

/-- The immutable condition set of one `find_solution` call (spec §3). -/
structure Conditions where
  num_statevars : ℕ
  num_components : ℕ
  prescribed_system_amount : ℚ
  initial_chemical_potentials : List ℚ
  free_chemical_potential_indices : List ℕ
  fixed_chemical_potential_indices : List ℕ
  prescribed_element_indices : List ℕ
  prescribed_elemental_amounts : List ℚ
  free_statevar_indices : List ℕ
  fixed_statevar_indices : List ℕ

/-- Modelled from the spec: `MIN_SITE_FRACTION` is imported from
`pycalphad.core.constants`, which is not part of this source tree; the spec
gives its value as `1e-12` (a strictly positive floor below `1`). -/
def MIN_SITE_FRACTION : ℚ := 1 / 1000000000000

/-! ### Per-phase KKT system (lines 9-58) -/

/-- `compute_phase_matrix` (lines 9-23): the symmetric KKT left-hand side of
Eq. 41.  The source fills blocks of a zero `(D+K) × (D+K)` matrix:
top-left `hess[S:, S:]`, bottom-left `cons_jac[:, S:]`, top-right its
transpose, bottom-right zero; here the same matrix is described pointwise. -/
def compute_phase_matrix (compset : CompositionSet) (num_statevars : ℕ)
    (phase_dof_vec : List ℚ) (hess : List (List ℚ)) : List (List ℚ) :=
  let D := compset.phase_record.phase_dof
  let K := compset.phase_record.num_internal_cons
  let cons_jac_tmp := compset.phase_record.internal_cons_jac phase_dof_vec
  (List.range (D + K)).map (fun i => (List.range (D + K)).map (fun j =>
    if i < D then
      (if j < D then get2 hess (num_statevars + i) (num_statevars + j)
       else get2 cons_jac_tmp (j - D) (num_statevars + i))
    else
      (if j < D then get2 cons_jac_tmp (i - D) (num_statevars + j) else 0)))

/-- `compute_phase_system` (lines 26-58): assemble the per-phase KKT matrix and
right-hand side, returning them with `np.abs(cons_tmp).max()` (the maximum
absolute internal-constraint residual). -/
def compute_phase_system (compset : CompositionSet)
    (delta_statevars chemical_potentials phase_dof_vec : List ℚ) :
    (List (List ℚ) × List ℚ) × ℚ :=
  let S := delta_statevars.length
  let C := chemical_potentials.length
  let D := compset.phase_record.phase_dof
  let K := compset.phase_record.num_internal_cons
  let cons_tmp := compset.phase_record.internal_cons_func phase_dof_vec
  let grad_tmp := compset.phase_record.grad phase_dof_vec
  let mass_jac_tmp :=
    (List.range C).map (fun c => compset.phase_record.mass_grad phase_dof_vec c)
  let hess_tmp := compset.phase_record.hess phase_dof_vec
  let phase_matrix := compute_phase_matrix compset S phase_dof_vec hess_tmp
  let phase_rhs := (List.range (D + K)).map (fun i =>
    if i < D then
      -(getV grad_tmp (S + i))
        - (((List.range S).map
            (fun sv => get2 hess_tmp (S + i) sv * getV delta_statevars sv)).sum)
        + (((List.range C).map
            (fun c => getV chemical_potentials c * get2 mass_jac_tmp c (S + i))).sum)
    else -(getV cons_tmp (i - D)))
  ((phase_matrix, phase_rhs), maxAbs cons_tmp)

/-! ### Internal-DOF update step (lines 326-355) -/

/-- The two sequential numpy masked writes of lines 345-346:
`new_y[new_y < MIN_SITE_FRACTION] = MIN_SITE_FRACTION` then
`new_y[new_y > 1] = 1`. -/
def clip_site_fractions (new_y : List ℚ) : List ℚ :=
  (new_y.map (fun v => if v < MIN_SITE_FRACTION then MIN_SITE_FRACTION else v)).map
    (fun v => if v > 1 then 1 else v)

/-- One composition set's internal-DOF update (lines 329-348): solve the phase
KKT system, apply the clipped `delta_y` to the site-fraction suffix of `x`.
Returns `((updated x, max |new_y - old_y|), internal_cons_max_residual)`. -/
def internal_phase_update (O : Oracles) (num_statevars : ℕ)
    (chemical_potentials delta_statevars : List ℚ)
    (compset : CompositionSet) (x : List ℚ) : (List ℚ × ℚ) × ℚ :=
  let sys := compute_phase_system compset delta_statevars chemical_potentials x
  let soln := O.linsolve sys.1.1 sys.1.2
  let delta_y := soln.take compset.phase_record.phase_dof
  let old_y := x.drop num_statevars
  let new_y := clip_site_fractions (List.zipWith (· + ·) old_y delta_y)
  ((x.take num_statevars ++ new_y, maxAbs (List.zipWith (· - ·) new_y old_y)), sys.2)

/-- Accumulator for the first step of each outer iteration: the (mutated) dof
list and the per-iteration trackers of lines 319-324. -/
structure InternalAcc where
  dof : List (List ℚ)
  current_elemental_amounts : List ℚ
  all_phase_energies : List ℚ
  all_phase_amounts : List (List ℚ)
  largest_internal_dof_change : ℚ
  largest_internal_cons_max_residual : ℚ

/-- Body of `for idx, compset in enumerate(compsets)` (lines 327-355): update
the phase's internal dof, then recompute its masses and energy at the new dof,
and accumulate `phase_amt[idx] * mass` into `current_elemental_amounts` when
`phase_amt[idx] > 0` (the test on line 353). -/
def internal_step_one (O : Oracles) (num_statevars num_components : ℕ)
    (chemical_potentials delta_statevars phase_amt : List ℚ)
    (acc : InternalAcc) (p : ℕ × CompositionSet) : InternalAcc :=
  let idx := p.1
  let compset := p.2
  let x := acc.dof.getD idx []
  let upd := internal_phase_update O num_statevars chemical_potentials delta_statevars compset x
  let x₁ := upd.1.1
  let masses_tmp := (List.range num_components).map (fun c => compset.phase_record.mass_obj x₁ c)
  let cea₁ := (List.range num_components).foldl (fun cea c =>
      if getV phase_amt idx > 0 then addV cea c (getV phase_amt idx * getV masses_tmp c)
      else cea) acc.current_elemental_amounts
  { dof := acc.dof.set idx x₁
    current_elemental_amounts := cea₁
    all_phase_energies := setV acc.all_phase_energies idx (compset.phase_record.obj x₁)
    all_phase_amounts := acc.all_phase_amounts.set idx masses_tmp
    largest_internal_dof_change := max acc.largest_internal_dof_change upd.1.2
    largest_internal_cons_max_residual := max acc.largest_internal_cons_max_residual upd.2 }

/-- FIRST STEP of an outer iteration (lines 326-355), starting from the freshly
zeroed per-iteration trackers of lines 319-325. -/
def internal_update_step (O : Oracles) (num_statevars num_components : ℕ)
    (chemical_potentials delta_statevars phase_amt : List ℚ)
    (compsets : List CompositionSet) (dof : List (List ℚ)) : InternalAcc :=
  compsets.enum.foldl
    (internal_step_one O num_statevars num_components chemical_potentials delta_statevars phase_amt)
    { dof := dof
      current_elemental_amounts := List.replicate num_components 0
      all_phase_energies := List.replicate compsets.length 0
      all_phase_amounts := List.replicate compsets.length (List.replicate num_components 0)
      largest_internal_dof_change := 0
      largest_internal_cons_max_residual := 0 }

/-! ### Global equilibrium system assembly (lines 61-182)

The pair `st = (equilibrium_matrix, equilibrium_rhs)` is threaded through the
source's write sequence; each fold mirrors one `for` loop. -/

/-- `fill_equilibrium_system_for_phase` (lines 61-182): one stable phase's
contribution to the global system.  `idx` is the composition-set index, and
`stable_idx` its row among the stable phases. -/
def fill_equilibrium_system_for_phase (st : List (List ℚ) × List ℚ)
    (energy : ℚ) (grad : List ℚ) (hess : List (List ℚ))
    (masses mass_jac e_matrix : List (List ℚ))
    (chemical_potentials phase_amt : List ℚ)
    (free_chemical_potential_indices free_statevar_indices free_stable_compset_indices
      fixed_chemical_potential_indices prescribed_element_indices : List ℕ)
    (prescribed_elemental_amounts : List ℚ)
    (idx stable_idx num_statevars : ℕ) : List (List ℚ) × List ℚ :=
  let S := num_statevars
  let num_components := chemical_potentials.length
  let num_stable_phases := free_stable_compset_indices.length
  let num_fixed_components := prescribed_elemental_amounts.length
  let rE := rowsOf e_matrix
  let cE := colsOf e_matrix
  -- Eq. 44 condensation vectors (lines 75-88)
  let c_G : List ℚ := (List.range rE).map (fun i =>
    -(((List.range cE).map (fun j => get2 e_matrix i j * getV grad (S + j))).sum))
  let c_statevars : List (List ℚ) := (List.range rE).map (fun i =>
    (List.range S).map (fun k =>
      -(((List.range cE).map (fun j => get2 e_matrix i j * get2 hess (S + j) k)).sum)))
  let c_component : List (List ℚ) := (List.range num_components).map (fun c =>
    (List.range rE).map (fun i =>
      ((List.range cE).map (fun j => get2 mass_jac c (S + j) * get2 e_matrix i j)).sum))
  -- 1a. phase row: free chemical potential columns (lines 101-103)
  let st := (List.range free_chemical_potential_indices.length).foldl (fun st i =>
    (set2 st.1 stable_idx i
      (get2 masses (free_chemical_potential_indices.getD i 0) 0), st.2)) st
  -- 1a. phase row: free stable composition sets contribute zero (line 106);
  -- 1a. phase row: free state variables (lines 108-110)
  let st := (List.range free_statevar_indices.length).foldl (fun st i =>
    (set2 st.1 stable_idx
      (free_chemical_potential_indices.length + num_stable_phases + i)
      (-(getV grad (free_statevar_indices.getD i 0))), st.2)) st
  -- 2. fixed-component rows (lines 112-142)
  let component_row_offset := num_stable_phases
  let st := (List.range num_fixed_components).foldl (fun st fc =>
    let component_idx := prescribed_element_indices.getD fc 0
    -- 2a. free chemical potential columns (lines 118-122)
    let st := (List.range free_chemical_potential_indices.length).foldl (fun st i =>
      let chempot_idx := free_chemical_potential_indices.getD i 0
      (List.range rE).foldl (fun st j =>
        (add2 st.1 (component_row_offset + fc) i
          (getV phase_amt idx * get2 mass_jac component_idx (S + j) *
            get2 c_component chempot_idx j), st.2)) st) st
    -- 2a. free stable composition-set columns (lines 125-131), only when this idx matches
    let st := (List.range num_stable_phases).foldl (fun st i =>
      if free_stable_compset_indices.getD i 0 = idx then
        (set2 st.1 (component_row_offset + fc) (free_chemical_potential_indices.length + i)
          (get2 masses component_idx 0), st.2)
      else st) st
    -- 2a. free state-variable columns (lines 134-138)
    let st := (List.range free_statevar_indices.length).foldl (fun st i =>
      let statevar_idx := free_statevar_indices.getD i 0
      (List.range rE).foldl (fun st j =>
        (add2 st.1 (component_row_offset + fc)
          (free_chemical_potential_indices.length + num_stable_phases + i)
          (getV phase_amt idx * get2 mass_jac component_idx (S + j) *
            get2 c_statevars j statevar_idx), st.2)) st) st
    -- 3. rhs of the fixed-component row (lines 140-142)
    (List.range rE).foldl (fun st j =>
      (st.1, addV st.2 (component_row_offset + fc)
        (-(getV phase_amt idx) * get2 mass_jac component_idx (S + j) * getV c_G j))) st) st
  -- 2X. the N=1 system-amount row (lines 144-170), summed over all components
  let system_amount_index := component_row_offset + num_fixed_components
  let st := (List.range num_components).foldl (fun st component_idx =>
    let st := (List.range free_chemical_potential_indices.length).foldl (fun st i =>
      let chempot_idx := free_chemical_potential_indices.getD i 0
      (List.range rE).foldl (fun st j =>
        (add2 st.1 system_amount_index i
          (getV phase_amt idx * get2 mass_jac component_idx (S + j) *
            get2 c_component chempot_idx j), st.2)) st) st
    let st := (List.range num_stable_phases).foldl (fun st i =>
      if free_stable_compset_indices.getD i 0 = idx then
        (add2 st.1 system_amount_index (free_chemical_potential_indices.length + i)
          (get2 masses component_idx 0), st.2)
      else st) st
    let st := (List.range free_statevar_indices.length).foldl (fun st i =>
      let statevar_idx := free_statevar_indices.getD i 0
      (List.range rE).foldl (fun st j =>
        (add2 st.1 system_amount_index
          (free_chemical_potential_indices.length + num_stable_phases + i)
          (getV phase_amt idx * get2 mass_jac component_idx (S + j) *
            get2 c_statevars j statevar_idx), st.2)) st) st
    (List.range rE).foldl (fun st j =>
      (st.1, addV st.2 system_amount_index
        (-(getV phase_amt idx) * get2 mass_jac component_idx (S + j) * getV c_G j))) st) st
  -- 4. energy on the RHS (line 172): the source writes `equilibrium_rhs[idx]`,
  -- with the composition-set index `idx`, not the stable-row index `stable_idx`
  let st := (st.1, setV st.2 idx energy)
  -- 5./6. fixed chemical potential subtractions (lines 174-182); the phase-row
  -- subtraction on line 176 also addresses `equilibrium_rhs[idx]`
  (List.range fixed_chemical_potential_indices.length).foldl (fun st i =>
    let chempot_idx := fixed_chemical_potential_indices.getD i 0
    let st := (st.1, addV st.2 idx
      (-(get2 masses chempot_idx 0 * getV chemical_potentials chempot_idx)))
    (List.range num_fixed_components).foldl (fun st fc =>
      let component_idx := prescribed_element_indices.getD fc 0
      (List.range rE).foldl (fun st j =>
        (st.1, addV st.2 (component_row_offset + fc)
          (-(getV phase_amt idx * getV chemical_potentials chempot_idx *
             get2 mass_jac component_idx (S + j) * get2 c_component chempot_idx j)))) st) st) st

/-- `fill_equilibrium_system` (lines 185-257): assemble every stable phase's
block (computing its energy/masses/Jacobians/Hessian at the current dof and the
condensed `e_matrix` through the abstract matrix inverse), then add the mass
imbalances to the RHS and return the scalar `mass_residual`.  Over `ℚ` the
per-element relative residual `|Δ|/|b|` is `0` when `b = 0` (a float would be
non-finite there). -/
def fill_equilibrium_system (O : Oracles) (st : List (List ℚ) × List ℚ)
    (compsets : List CompositionSet)
    (chemical_potentials current_elemental_amounts phase_amt : List ℚ)
    (free_chemical_potential_indices free_statevar_indices free_stable_compset_indices
      fixed_chemical_potential_indices prescribed_element_indices : List ℕ)
    (prescribed_elemental_amounts : List ℚ)
    (num_statevars : ℕ) (prescribed_system_amount : ℚ)
    (dof : List (List ℚ)) : (List (List ℚ) × List ℚ) × ℚ :=
  let num_components := chemical_potentials.length
  let num_stable_phases := free_stable_compset_indices.length
  let num_fixed_components := prescribed_elemental_amounts.length
  -- per-phase assembly (lines 207-240)
  let st := free_stable_compset_indices.enum.foldl (fun st p =>
    let stable_idx := p.1
    let idx := p.2
    let compset := compsets.getD idx default
    let x := dof.getD idx []
    let energy := compset.phase_record.obj x
    let masses_tmp := (List.range num_components).map
      (fun c => [compset.phase_record.mass_obj x c])
    let mass_jac_tmp := (List.range num_components).map
      (fun c => compset.phase_record.mass_grad x c)
    let hess_tmp := compset.phase_record.hess x
    let grad_tmp := compset.phase_record.grad x
    let phase_matrix := compute_phase_matrix compset num_statevars x hess_tmp
    let D := compset.phase_record.phase_dof
    let e_matrix := ((O.matinv phase_matrix).take D).map (fun row => row.take D)
    fill_equilibrium_system_for_phase st energy grad_tmp hess_tmp masses_tmp mass_jac_tmp
      e_matrix chemical_potentials phase_amt free_chemical_potential_indices
      free_statevar_indices free_stable_compset_indices fixed_chemical_potential_indices
      prescribed_element_indices prescribed_elemental_amounts idx stable_idx num_statevars) st
  -- mass residual and imbalance corrections (lines 242-256)
  let component_row_offset := num_stable_phases
  let system_amount_index := component_row_offset + num_fixed_components
  let current_system_amount := phase_amt.sum
  let res := (List.range num_fixed_components).foldl
    (fun (acc : (List (List ℚ) × List ℚ) × ℚ) fc =>
      let component_idx := prescribed_element_indices.getD fc 0
      let diff := getV current_elemental_amounts component_idx -
        getV prescribed_elemental_amounts fc
      ((acc.1.1, addV acc.1.2 (component_row_offset + fc) (-diff)),
        acc.2 + |diff| / |getV prescribed_elemental_amounts fc|)) (st, 0)
  ((res.1.1, addV res.1.2 system_amount_index
      (-(current_system_amount - prescribed_system_amount))),
    res.2 + |current_system_amount - prescribed_system_amount|)

/-! ### Solution extraction (lines 260-291) -/

/-- Result of `extract_equilibrium_solution`: the four mutated arrays and the
two change trackers it folds into. -/
structure ExtractResult where
  chemical_potentials : List ℚ
  phase_amt : List ℚ
  delta_statevars : List ℚ
  dof : List (List ℚ)
  largest_statevar_change : ℚ
  largest_phase_amt_change : ℚ

/-- The phase-amount update loop of lines 273-280: for each `(i, compset_idx)`
in the enumerated stable list, add the solution increment, clip with
`np.minimum(1.0, ·)` then `np.maximum(0.0, ·)`, and track the signed change. -/
def apply_phase_amt_updates (equilibrium_soln : List ℚ) (soln_index_offset : ℕ)
    (init : List ℚ × ℚ) (pairs : List (ℕ × ℕ)) : List ℚ × ℚ :=
  pairs.foldl (fun am p =>
    let old := getV am.1 p.2
    let v := max 0 (min 1 (old + getV equilibrium_soln (soln_index_offset + p.1)))
    (setV am.1 p.2 v, max am.2 (v - old))) init

/-- `extract_equilibrium_solution` (lines 260-291): unpack the global solution
vector in column order (free chemical potentials, free phase amounts, free
state variables), with clipping and change tracking.  The chemical-potential
relative change `|Δμ/μ_old|` (line 269) and the state-variable relative change
with its NaN masking (lines 287-288) are divisions over `ℚ` here; their IEEE
behaviour is modelled separately by `percent_chempot_change` and
`masked_percent_statevar_change`.  `np.max` of the percent changes matches the
`foldl max 0` below on every nonempty (nonnegative) input. -/
def extract_equilibrium_solution (chemical_potentials phase_amt delta_statevars : List ℚ)
    (free_chemical_potential_indices free_statevar_indices : List ℕ)
    (free_stable_compset_indices : List ℕ) (equilibrium_soln : List ℚ)
    (largest_statevar_change largest_phase_amt_change : ℚ)
    (dof : List (List ℚ)) : ExtractResult :=
  let num_statevars := delta_statevars.length
  let cp := free_chemical_potential_indices.enum.foldl (fun cp p =>
    let chempot_change := getV equilibrium_soln p.1 - getV cp.1 p.2
    let pct := |chempot_change / getV cp.1 p.2|
    (setV cp.1 p.2 (getV equilibrium_soln p.1), max cp.2 pct))
    (chemical_potentials, largest_statevar_change)
  let off1 := free_chemical_potential_indices.length
  let am := apply_phase_amt_updates equilibrium_soln off1 (phase_amt, largest_phase_amt_change)
    free_stable_compset_indices.enum
  let off2 := off1 + free_stable_compset_indices.length
  let delta1 := free_statevar_indices.enum.foldl (fun d p =>
    setV d p.2 (getV equilibrium_soln (off2 + p.1)))
    (List.replicate num_statevars (0 : ℚ))
  let pct_sv := (List.range num_statevars).map
    (fun i => |getV delta1 i / getV (dof.getD 0 []) i|)
  let lsc := max cp.2 (pct_sv.foldl max 0)
  let dof1 := dof.map (fun d => (List.range num_statevars).foldl (fun dd i =>
    setV dd i (getV dd i + getV delta1 i)) d)
  ⟨cp.1, am.1, delta1, dof1, lsc, am.2⟩

/-! ### Convergence controller (lines 294-304) -/

/-- `check_convergence_and_change_phases` (lines 294-304): admit phases whose
driving force exceeds `-1e-5`, form the sorted union with the current active
set, and declare convergence when nothing was removed and all three change
trackers are under their tolerances.  `driving_forces` is the single column of
the source's `(n, 1)` array. -/
def check_convergence_and_change_phases (current_free_stable_compset_indices : List ℕ)
    (driving_forces : List ℚ)
    (largest_internal_dof_change largest_phase_amt_change largest_statevar_change : ℚ) :
    Bool × List ℕ :=
  let compsets_to_add := (List.range driving_forces.length).filter
    (fun i => getV driving_forces i > -(1 / 100000))
  let new_free_stable_compset_indices :=
    List.insertionSort (· ≤ ·) ((current_free_stable_compset_indices ++ compsets_to_add).dedup)
  let converged :=
    if current_free_stable_compset_indices.all
        (fun i => decide (i ∈ new_free_stable_compset_indices)) then
      decide (largest_internal_dof_change < 1 / 100000000000) &&
        decide (largest_phase_amt_change < 1 / 10000000000) &&
        decide (largest_statevar_change < 1 / 10)
    else false
  (converged, new_free_stable_compset_indices)

/-! ### Solver driver (lines 307-405)

One outer iteration is decomposed into named pieces (the source's local
variables become recomputed pure functions of the iteration's entry state);
`run_iteration` then reassembles them, returning the successor state together
with the iteration's `mass_residual`, constraint residual and assembled
equilibrium matrix (diagnostics that are local variables in the source). -/

/-- The mutable solver state at the top of an outer iteration. -/
structure SolverState where
  phase_amt : List ℚ
  dof : List (List ℚ)
  chemical_potentials : List ℚ
  delta_statevars : List ℚ
  free_stable_compset_indices : List ℕ
  converged : Bool
deriving DecidableEq

/-- Outcome of one outer iteration: successor state plus the iteration's
`mass_residual`, `largest_internal_cons_max_residual`, and the assembled
global matrix. -/
structure IterResult where
  state : SolverState
  mass_residual : ℚ
  largest_internal_cons_max_residual : ℚ
  equilibrium_matrix : List (List ℚ)
deriving DecidableEq

/-- The `ValueError` message of line 365. -/
def gibbs_rule_violation_msg : String := "Conditions do not obey Gibbs Phase Rule"

/-- FIRST STEP of the iteration (lines 326-355) applied to the entry state. -/
def iter_acc (O : Oracles) (compsets : List CompositionSet) (cond : Conditions)
    (s : SolverState) : InternalAcc :=
  internal_update_step O cond.num_statevars cond.num_components s.chemical_potentials
    s.delta_statevars s.phase_amt compsets s.dof

/-- Row count of the global system, `num_stable_phases + num_fixed_components + 1`
(line 362/364). -/
def num_equations (cond : Conditions) (s : SolverState) : ℕ :=
  s.free_stable_compset_indices.length + cond.prescribed_elemental_amounts.length + 1

/-- Column count of the global system, `num_free_variables` (lines 360-361). -/
def num_free_variables (cond : Conditions) (s : SolverState) : ℕ :=
  cond.free_chemical_potential_indices.length + s.free_stable_compset_indices.length +
    cond.free_statevar_indices.length

/-- Lines 362-373: the freshly zeroed global system filled by
`fill_equilibrium_system`, together with the returned `mass_residual`. -/
def iter_filled_system (O : Oracles) (compsets : List CompositionSet) (cond : Conditions)
    (s : SolverState) : (List (List ℚ) × List ℚ) × ℚ :=
  fill_equilibrium_system O
    (zeros2 (num_equations cond s) (num_free_variables cond s),
      List.replicate (num_equations cond s) 0)
    compsets s.chemical_potentials (iter_acc O compsets cond s).current_elemental_amounts
    s.phase_amt cond.free_chemical_potential_indices cond.free_statevar_indices
    s.free_stable_compset_indices cond.fixed_chemical_potential_indices
    cond.prescribed_element_indices cond.prescribed_elemental_amounts
    cond.num_statevars cond.prescribed_system_amount (iter_acc O compsets cond s).dof

/-- Lines 375-381: least-squares solve of the filled system and extraction of
the solution, with the per-iteration trackers freshly zeroed (lines 322-325). -/
def iter_extract (O : Oracles) (compsets : List CompositionSet) (cond : Conditions)
    (s : SolverState) : ExtractResult :=
  extract_equilibrium_solution s.chemical_potentials s.phase_amt s.delta_statevars
    cond.free_chemical_potential_indices cond.free_statevar_indices
    s.free_stable_compset_indices
    (O.lstsq (iter_filled_system O compsets cond s).1.1
      (iter_filled_system O compsets cond s).1.2)
    0 0 (iter_acc O compsets cond s).dof

/-- Lines 383-398: the feasibility gate.  When feasible, the active set is
recomputed from `phase_amt > MIN_SITE_FRACTION` (line 387), driving forces are
`energy - μ·mass` at the updated chemical potentials (lines 389-390), and
`check_convergence_and_change_phases` decides convergence and the new active
set.  When infeasible, the active set and the `converged` flag keep their
entry values. -/
def iter_state (O : Oracles) (compsets : List CompositionSet) (cond : Conditions)
    (s : SolverState) : SolverState :=
  let acc := iter_acc O compsets cond s
  let ex := iter_extract O compsets cond s
  if (iter_filled_system O compsets cond s).2 < 1 / 100000 ∧
      acc.largest_internal_cons_max_residual < 1 / 10000000000 then
    let fs := (List.range compsets.length).filter
      (fun i => getV ex.phase_amt i > MIN_SITE_FRACTION)
    let dfs := (List.range compsets.length).map (fun i =>
      getV acc.all_phase_energies i -
        (List.zipWith (· * ·) ex.chemical_potentials (acc.all_phase_amounts.getD i [])).sum)
    let chk := check_convergence_and_change_phases fs dfs acc.largest_internal_dof_change
      ex.largest_phase_amt_change ex.largest_statevar_change
    { phase_amt := ex.phase_amt, dof := ex.dof,
      chemical_potentials := ex.chemical_potentials,
      delta_statevars := ex.delta_statevars,
      free_stable_compset_indices := chk.2, converged := chk.1 }
  else
    { phase_amt := ex.phase_amt, dof := ex.dof,
      chemical_potentials := ex.chemical_potentials,
      delta_statevars := ex.delta_statevars,
      free_stable_compset_indices := s.free_stable_compset_indices,
      converged := s.converged }

/-- One outer iteration (lines 318-398).  The Gibbs-phase-rule check of lines
364-365 raises before the global system is filled or solved; over this
embedding a raise aborts the call, so the iteration's (unobservable after the
raise) internal-dof writes are discarded with it. -/
def run_iteration (O : Oracles) (compsets : List CompositionSet) (cond : Conditions)
    (s : SolverState) : Except String IterResult :=
  if num_equations cond s ≠ num_free_variables cond s then
    .error gibbs_rule_violation_msg
  else
    .ok { state := iter_state O compsets cond s
          mass_residual := (iter_filled_system O compsets cond s).2
          largest_internal_cons_max_residual :=
            (iter_acc O compsets cond s).largest_internal_cons_max_residual
          equilibrium_matrix := (iter_filled_system O compsets cond s).1.1 }

/-- The outer `for iteration in range(100)` loop with its `break` on
convergence, instrumented with the count of iterations executed. -/
def find_solution_loop (O : Oracles) (compsets : List CompositionSet) (cond : Conditions) :
    ℕ → SolverState × ℕ → Except String (SolverState × ℕ)
  | 0, acc => .ok acc
  | fuel + 1, (s, n) =>
    match run_iteration O compsets cond s with
    | .error e => .error e
    | .ok r =>
      if r.state.converged then .ok (r.state, n + 1)
      else find_solution_loop O compsets cond fuel (r.state, n + 1)

/-- Lines 312-316: the solver state is initialized from copies of the
composition sets' `NP` and `dof` (`np.array(...)` copies); the composition
sets themselves are only ever read by the solver. -/
def initial_state (compsets : List CompositionSet) (free_stable_compset_indices : List ℕ)
    (cond : Conditions) : SolverState :=
  { phase_amt := compsets.map (fun c => c.NP)
    dof := compsets.map (fun c => c.dof)
    chemical_potentials := cond.initial_chemical_potentials
    delta_statevars := List.replicate cond.num_statevars 0
    free_stable_compset_indices := free_stable_compset_indices
    converged := false }

/-- Lines 400-403: the packed solution `dof[0] ⊕ dof[i][S:] ⊕ phase_amt`. -/
def pack_solution (num_statevars : ℕ) (dof : List (List ℚ)) (phase_amt : List ℚ) : List ℚ :=
  ((dof.drop 1).foldl (fun x d => x ++ d.drop num_statevars) (dof.getD 0 [])) ++ phase_amt

/-- `find_solution` (lines 307-405): run up to 100 outer iterations from the
initial state and return `(converged, packed solution, chemical_potentials)`. -/
def find_solution (O : Oracles) (compsets : List CompositionSet)
    (free_stable_compset_indices : List ℕ) (cond : Conditions) :
    Except String (Bool × List ℚ × List ℚ) :=
  match find_solution_loop O compsets cond 100
      (initial_state compsets free_stable_compset_indices cond, 0) with
  | .error e => .error e
  | .ok (s, _) =>
    .ok (s.converged, pack_solution cond.num_statevars s.dof s.phase_amt,
      s.chemical_potentials)

/-! ### IEEE-style scalar model for the division hazards

The two relative-change expressions of `extract_equilibrium_solution` divide by
values that can be zero; over floats that produces `inf` (or `nan` for `0/0`).
The `FP` type models just enough of IEEE arithmetic to state that. -/

/-- An IEEE-style scalar: a finite rational, a signed infinity, or NaN
(signed zeros are not distinguished). -/
inductive FP where
  | num : ℚ → FP
  | inf : FP
  | neginf : FP
  | nan : FP
deriving DecidableEq

/-- IEEE-style subtraction. -/
def FP.sub : FP → FP → FP
  | nan, _ => nan
  | _, nan => nan
  | num a, num b => num (a - b)
  | num _, inf => neginf
  | num _, neginf => inf
  | inf, num _ => inf
  | inf, neginf => inf
  | inf, inf => nan
  | neginf, num _ => neginf
  | neginf, inf => neginf
  | neginf, neginf => nan

/-- IEEE-style division: a nonzero finite value divided by zero is a signed
infinity, `0/0` is NaN. -/
def FP.div : FP → FP → FP
  | nan, _ => nan
  | _, nan => nan
  | num a, num b =>
    if b = 0 then (if a = 0 then nan else if a > 0 then inf else neginf)
    else num (a / b)
  | num _, inf => num 0
  | num _, neginf => num 0
  | inf, num b => if b < 0 then neginf else inf
  | neginf, num b => if b < 0 then inf else neginf
  | inf, inf => nan
  | inf, neginf => nan
  | neginf, inf => nan
  | neginf, neginf => nan

/-- IEEE-style absolute value. -/
def FP.abs : FP → FP
  | num a => num |a|
  | inf => inf
  | neginf => inf
  | nan => nan

/-- Whether the scalar is a finite number. -/
def FP.isFinite : FP → Bool
  | num _ => true
  | _ => false

/-- Whether the scalar is NaN. -/
def FP.isNaN : FP → Bool
  | nan => true
  | _ => false

/-- The chemical-potential relative-change expression of lines 268-269 over
IEEE-style scalars: `abs((soln - old) / old)`, with no guard on `old = 0`. -/
def percent_chempot_change (soln old : FP) : FP :=
  FP.abs (FP.div (FP.sub soln old) old)

/-- One entry of `percent_statevar_changes` after the masking of lines 287-288:
`abs(delta / sv)`, with NaN entries set to `0`
(`percent_statevar_changes[np.isnan(percent_statevar_changes)] = 0`). -/
def masked_percent_statevar_change (delta sv : FP) : FP :=
  let p := FP.abs (FP.div delta sv)
  if p = FP.nan then FP.num 0 else p

/-! ### Descriptions of the mass accumulation (for the active-set claim) -/

/-- The total `current_elemental_amounts[comp]` produced by the code path of
lines 350-354 over a composition-set list starting at index `k`: every set
whose phase amount is strictly positive contributes `phase_amt · mass` (mass
evaluated at the dof this iteration's internal step produces for it), and no
other set contributes anything. -/
def positive_amt_contributions (O : Oracles) (num_statevars : ℕ)
    (chemical_potentials delta_statevars phase_amt : List ℚ)
    (dof0 : List (List ℚ)) (comp : ℕ) : ℕ → List CompositionSet → ℚ
  | _, [] => 0
  | k, c :: rest =>
    (if getV phase_amt k > 0 then
      getV phase_amt k * c.phase_record.mass_obj
        (internal_phase_update O num_statevars chemical_potentials delta_statevars c
          (dof0.getD k [])).1.1 comp
     else 0) +
      positive_amt_contributions O num_statevars chemical_potentials delta_statevars
        phase_amt dof0 comp (k + 1) rest

/-- Stated from the claim's words: the accumulation the claim asserts, summing
`phase_amt[idx] * mass[idx, comp]` over exactly the phases of the active set
`free_stable_compset_indices` (masses at the updated dof). -/
def claimed_stable_only_total (O : Oracles) (num_statevars : ℕ)
    (chemical_potentials delta_statevars phase_amt : List ℚ)
    (dof0 : List (List ℚ)) (comp : ℕ)
    (free_stable_compset_indices : List ℕ) (compsets : List CompositionSet) : ℚ :=
  (free_stable_compset_indices.map (fun idx =>
    getV phase_amt idx * (compsets.getD idx default).phase_record.mass_obj
      (internal_phase_update O num_statevars chemical_potentials delta_statevars
        (compsets.getD idx default) (dof0.getD idx [])).1.1 comp)).sum

/-! ### Concrete fixtures used by the witnesses and counterexamples -/

/-- A minimal concrete phase record: one state variable in scope, one internal
dof, one internal constraint; every callback returns zeros except the masses,
which are identically 1. -/
def onePR : PhaseRecord :=
  { phase_dof := 1, num_internal_cons := 1
    obj := fun _ => 0
    grad := fun _ => [0, 0]
    hess := fun _ => [[0, 0], [0, 0]]
    mass_obj := fun _ _ => 1
    mass_grad := fun _ _ => [0, 0]
    internal_cons_func := fun _ => [0]
    internal_cons_jac := fun _ => [[0, 0]] }

/-- Oracles whose linear solves return all-zero corrections and whose
least-squares solution is the zero vector of length 2. -/
def zeroOracles : Oracles :=
  { linsolve := fun _ v => v.map (fun _ => 0)
    matinv := fun m => m
    lstsq := fun _ _ => [0, 0] }

/-- Oracles as above but whose global least-squares step always proposes a
phase-amount increment of `1/2`. -/
def stepOracles : Oracles :=
  { linsolve := fun _ v => v.map (fun _ => 0)
    matinv := fun m => m
    lstsq := fun _ _ => [0, 1/2] }

/-- One component, one state variable (fixed), one free chemical potential:
a square single-phase condition set. -/
def oneCond : Conditions :=
  { num_statevars := 1, num_components := 1, prescribed_system_amount := 1
    initial_chemical_potentials := [0]
    free_chemical_potential_indices := [0], fixed_chemical_potential_indices := []
    prescribed_element_indices := [], prescribed_elemental_amounts := []
    free_statevar_indices := [], fixed_statevar_indices := [0] }

/-- A single composition set at half the prescribed system amount. -/
def oneCompset : CompositionSet := { phase_record := onePR, NP := 1/2, dof := [1, 1/2] }

/-! ### Generic list lemmas -/

theorem foldl_preserves {α β : Type} (P : β → Prop) (f : β → α → β)
    (hf : ∀ b a, P b → P (f b a)) : ∀ (l : List α) (b : β), P b → P (l.foldl f b) := by
  intro l
  induction l with
  | nil => intro b hb; exact hb
  | cons a t ih => intro b hb; exact ih (f b a) (hf b a hb)

theorem foldl_const {α β : Type} (l : List α) (b : β) :
    l.foldl (fun x _ => x) b = b := by
  induction l with
  | nil => rfl
  | cons a t ih => exact ih

theorem getD_set_ne {α : Type} (v : List α) (i j : ℕ) (q d : α) (hij : i ≠ j) :
    (v.set i q).getD j d = v.getD j d := by
  simp [List.getD_eq_getElem?_getD, List.getElem?_set_ne hij]

theorem getD_set_self {α : Type} (v : List α) (i : ℕ) (q d : α) (hi : i < v.length) :
    (v.set i q).getD i d = q := by
  simp [List.getD_eq_getElem?_getD, List.getElem?_set_self hi]

theorem getD_of_length_le {α : Type} (v : List α) (j : ℕ) (d : α) (h : v.length ≤ j) :
    v.getD j d = d := by
  simp [List.getD_eq_getElem?_getD, List.getElem?_eq_none h]

theorem getD_map_range {α : Type} (n j : ℕ) (f : ℕ → α) (d : α) (hj : j < n) :
    ((List.range n).map f).getD j d = f j := by
  have hlen : j < ((List.range n).map f).length := by simpa using hj
  rw [List.getD_eq_getElem?_getD, List.getElem?_eq_getElem hlen]
  simp

/-! ### Shape invariants of the assembled system -/

/-- `m` is an `r × c` row-major matrix. -/
def MatDims (m : List (List ℚ)) (r c : ℕ) : Prop :=
  m.length = r ∧ ∀ row ∈ m, row.length = c

/-- Shape of the threaded `(equilibrium_matrix, equilibrium_rhs)` pair. -/
def EqShape (r c : ℕ) (st : List (List ℚ) × List ℚ) : Prop :=
  MatDims st.1 r c ∧ st.2.length = r

theorem matDims_zeros2 (r c : ℕ) : MatDims (zeros2 r c) r c := by
  constructor
  · simp [zeros2]
  · intro row hrow
    have := List.eq_of_mem_replicate hrow
    simp [this]

theorem matDims_set2 {m : List (List ℚ)} {r c : ℕ} (h : MatDims m r c)
    (i j : ℕ) (q : ℚ) : MatDims (set2 m i j q) r c := by
  by_cases hi : i < m.length
  · refine ⟨by simp [set2, h.1], ?_⟩
    intro row hrow
    rcases List.mem_or_eq_of_mem_set hrow with hmem | heq
    · exact h.2 row hmem
    · subst heq
      have hg : m.getD i [] = m[i] := by
        rw [List.getD_eq_getElem?_getD, List.getElem?_eq_getElem hi, Option.getD_some]
      rw [List.length_set, hg]
      exact h.2 _ (List.getElem_mem hi)
  · rw [set2, List.set_eq_of_length_le (Nat.le_of_not_lt hi)]
    exact h

theorem matDims_add2 {m : List (List ℚ)} {r c : ℕ} (h : MatDims m r c)
    (i j : ℕ) (q : ℚ) : MatDims (add2 m i j q) r c :=
  matDims_set2 h i j _

theorem length_setV (v : List ℚ) (i : ℕ) (q : ℚ) : (setV v i q).length = v.length := by
  simp [setV]

theorem length_addV (v : List ℚ) (i : ℕ) (q : ℚ) : (addV v i q).length = v.length := by
  simp [addV]

theorem eqShape_mat {r c : ℕ} {st : List (List ℚ) × List ℚ} (h : EqShape r c st)
    (f : List (List ℚ) → List (List ℚ)) (hf : MatDims st.1 r c → MatDims (f st.1) r c) :
    EqShape r c (f st.1, st.2) := ⟨hf h.1, h.2⟩

theorem eqShape_rhs_setV {r c : ℕ} {st : List (List ℚ) × List ℚ} (h : EqShape r c st)
    (i : ℕ) (q : ℚ) : EqShape r c (st.1, setV st.2 i q) :=
  ⟨h.1, by rw [length_setV]; exact h.2⟩

theorem eqShape_rhs_addV {r c : ℕ} {st : List (List ℚ) × List ℚ} (h : EqShape r c st)
    (i : ℕ) (q : ℚ) : EqShape r c (st.1, addV st.2 i q) :=
  ⟨h.1, by rw [length_addV]; exact h.2⟩

theorem eqShape_set2 {r c : ℕ} {st : List (List ℚ) × List ℚ} (h : EqShape r c st)
    (i j : ℕ) (q : ℚ) : EqShape r c (set2 st.1 i j q, st.2) :=
  ⟨matDims_set2 h.1 i j q, h.2⟩

theorem eqShape_add2 {r c : ℕ} {st : List (List ℚ) × List ℚ} (h : EqShape r c st)
    (i j : ℕ) (q : ℚ) : EqShape r c (add2 st.1 i j q, st.2) :=
  ⟨matDims_add2 h.1 i j q, h.2⟩

/-- `fill_equilibrium_system_for_phase` only writes entries in place: the shape
of the system is preserved. -/
theorem fill_for_phase_shape (r c : ℕ) (st : List (List ℚ) × List ℚ)
    (energy : ℚ) (grad : List ℚ) (hess masses mass_jac e_matrix : List (List ℚ))
    (chemical_potentials phase_amt : List ℚ)
    (fcpi fsvi fsci fxci pei : List ℕ) (pea : List ℚ) (idx stable_idx S : ℕ)
    (h : EqShape r c st) :
    EqShape r c (fill_equilibrium_system_for_phase st energy grad hess masses mass_jac
      e_matrix chemical_potentials phase_amt fcpi fsvi fsci fxci pei pea idx stable_idx S) := by
  unfold fill_equilibrium_system_for_phase
  apply foldl_preserves (EqShape r c)
  · -- step 5/6: fixed chemical potentials
    intro b a hb
    apply foldl_preserves (EqShape r c)
    · intro b2 a2 hb2
      apply foldl_preserves (EqShape r c)
      · intro b3 a3 hb3
        exact eqShape_rhs_addV hb3 _ _
      · exact hb2
    · exact eqShape_rhs_addV hb _ _
  · -- step 4: the energy write, applied to the 2X fold
    apply eqShape_rhs_setV
    -- 2X: system-amount row
    apply foldl_preserves (EqShape r c)
    · intro b a hb
      apply foldl_preserves (EqShape r c)
      · intro b2 a2 hb2
        exact eqShape_rhs_addV hb2 _ _
      · apply foldl_preserves (EqShape r c)
        · intro b2 a2 hb2
          apply foldl_preserves (EqShape r c)
          · intro b3 a3 hb3
            exact eqShape_add2 hb3 _ _ _
          · exact hb2
        · apply foldl_preserves (EqShape r c)
          · intro b2 a2 hb2
            split
            · exact eqShape_add2 hb2 _ _ _
            · exact hb2
          · apply foldl_preserves (EqShape r c)
            · intro b2 a2 hb2
              apply foldl_preserves (EqShape r c)
              · intro b3 a3 hb3
                exact eqShape_add2 hb3 _ _ _
              · exact hb2
            · exact hb
    · -- 2.: fixed-component rows
      apply foldl_preserves (EqShape r c)
      · intro b a hb
        apply foldl_preserves (EqShape r c)
        · intro b2 a2 hb2
          exact eqShape_rhs_addV hb2 _ _
        · apply foldl_preserves (EqShape r c)
          · intro b2 a2 hb2
            apply foldl_preserves (EqShape r c)
            · intro b3 a3 hb3
              exact eqShape_add2 hb3 _ _ _
            · exact hb2
          · apply foldl_preserves (EqShape r c)
            · intro b2 a2 hb2
              split
              · exact eqShape_set2 hb2 _ _ _
              · exact hb2
            · apply foldl_preserves (EqShape r c)
              · intro b2 a2 hb2
                apply foldl_preserves (EqShape r c)
                · intro b3 a3 hb3
                  exact eqShape_add2 hb3 _ _ _
                · exact hb2
              · exact hb
      · -- 1a: the two phase-row folds
        apply foldl_preserves (EqShape r c)
        · intro b a hb
          exact eqShape_set2 hb _ _ _
        · apply foldl_preserves (EqShape r c)
          · intro b a hb
            exact eqShape_set2 hb _ _ _
          · exact h

/-- `fill_equilibrium_system` preserves the shape of the system it fills. -/
theorem fill_system_shape (r c : ℕ) (O : Oracles) (st : List (List ℚ) × List ℚ)
    (compsets : List CompositionSet)
    (chemical_potentials current_elemental_amounts phase_amt : List ℚ)
    (fcpi fsvi fsci fxci pei : List ℕ) (pea : List ℚ)
    (num_statevars : ℕ) (prescribed_system_amount : ℚ) (dof : List (List ℚ))
    (h : EqShape r c st) :
    EqShape r c (fill_equilibrium_system O st compsets chemical_potentials
      current_elemental_amounts phase_amt fcpi fsvi fsci fxci pei pea
      num_statevars prescribed_system_amount dof).1 := by
  unfold fill_equilibrium_system
  apply eqShape_rhs_addV
  apply foldl_preserves (fun acc : (List (List ℚ) × List ℚ) × ℚ => EqShape r c acc.1)
  · intro b a hb
    exact eqShape_rhs_addV hb _ _
  · show EqShape r c _
    apply foldl_preserves (EqShape r c)
    · intro b p hb
      apply fill_for_phase_shape
      exact hb
    · exact h

/-- The global system assembled by an iteration has `num_equations` rows, each
of length `num_free_variables`. -/
theorem iter_filled_system_shape (O : Oracles) (compsets : List CompositionSet)
    (cond : Conditions) (s : SolverState) :
    EqShape (num_equations cond s) (num_free_variables cond s)
      (iter_filled_system O compsets cond s).1 := by
  unfold iter_filled_system
  apply fill_system_shape
  exact ⟨matDims_zeros2 _ _, by simp⟩

/-! ### Loop counting lemmas -/

theorem loop_count_le (O : Oracles) (compsets : List CompositionSet) (cond : Conditions) :
    ∀ (fuel : ℕ) (s : SolverState) (n : ℕ) (s' : SolverState) (n' : ℕ),
      find_solution_loop O compsets cond fuel (s, n) = .ok (s', n') → n' ≤ n + fuel := by
  intro fuel
  induction fuel with
  | zero =>
    intro s n s' n' h
    simp only [find_solution_loop, Except.ok.injEq, Prod.mk.injEq] at h
    omega
  | succ fuel ih =>
    intro s n s' n' h
    simp only [find_solution_loop] at h
    cases hr : run_iteration O compsets cond s with
    | error e => rw [hr] at h; cases h
    | ok r =>
      rw [hr] at h
      by_cases hc : r.state.converged
      · simp only [hc, if_true, Except.ok.injEq, Prod.mk.injEq] at h
        omega
      · simp only [hc, if_false] at h
        have := ih r.state (n + 1) s' n' h
        omega

theorem loop_count_exact (O : Oracles) (compsets : List CompositionSet) (cond : Conditions) :
    ∀ (fuel : ℕ) (s : SolverState) (n : ℕ) (s' : SolverState) (n' : ℕ),
      find_solution_loop O compsets cond fuel (s, n) = .ok (s', n') →
      s'.converged = false → n' = n + fuel := by
  intro fuel
  induction fuel with
  | zero =>
    intro s n s' n' h _
    simp only [find_solution_loop, Except.ok.injEq, Prod.mk.injEq] at h
    omega
  | succ fuel ih =>
    intro s n s' n' h hc'
    simp only [find_solution_loop] at h
    cases hr : run_iteration O compsets cond s with
    | error e => rw [hr] at h; cases h
    | ok r =>
      rw [hr] at h
      by_cases hc : r.state.converged
      · simp only [hc, if_true, Except.ok.injEq, Prod.mk.injEq] at h
        rw [← h.1] at hc'
        rw [hc'] at hc
        cases hc
      · simp only [hc, if_false] at h
        have := ih r.state (n + 1) s' n' h hc'
        omega

theorem loop_fixed_point (O : Oracles) (compsets : List CompositionSet) (cond : Conditions)
    (s : SolverState) (r : IterResult) (h : run_iteration O compsets cond s = .ok r)
    (hs : r.state = s) (hc : s.converged = false) :
    ∀ (fuel n : ℕ), find_solution_loop O compsets cond fuel (s, n) = .ok (s, n + fuel) := by
  intro fuel
  induction fuel with
  | zero => intro n; simp [find_solution_loop]
  | succ fuel ih =>
    intro n
    simp only [find_solution_loop, h, hs, hc]
    rw [if_neg (by simp)]
    rw [ih (n + 1)]
    have hn : n + 1 + fuel = n + (fuel + 1) := by omega
    rw [hn]

/-! ### Bounds lemmas for the clipped phase-amount updates -/

theorem apply_phase_amt_updates_bounds_pres (soln : List ℚ) (off : ℕ) :
    ∀ (pairs : List (ℕ × ℕ)) (init : List ℚ × ℚ) (j : ℕ),
      0 ≤ getV init.1 j ∧ getV init.1 j ≤ 1 →
      0 ≤ getV (apply_phase_amt_updates soln off init pairs).1 j ∧
        getV (apply_phase_amt_updates soln off init pairs).1 j ≤ 1 := by
  intro pairs
  induction pairs with
  | nil => intro init j h; exact h
  | cons p rest ih =>
    intro init j h
    refine ih _ j ?_
    dsimp only [apply_phase_amt_updates]
    by_cases hpj : p.2 = j
    · subst hpj
      by_cases hlt : p.2 < init.1.length
      · rw [getV, setV, getD_set_self _ _ _ _ hlt]
        exact ⟨le_max_left 0 _, max_le zero_le_one (min_le_left 1 _)⟩
      · rw [getV, setV, List.set_eq_of_length_le (Nat.le_of_not_lt hlt)]
        exact h
    · rw [getV, setV, getD_set_ne _ _ _ _ _ hpj]
      exact h

theorem apply_phase_amt_updates_bounds (soln : List ℚ) (off : ℕ) :
    ∀ (pairs : List (ℕ × ℕ)) (init : List ℚ × ℚ) (j : ℕ),
      j ∈ pairs.map Prod.snd →
      0 ≤ getV (apply_phase_amt_updates soln off init pairs).1 j ∧
        getV (apply_phase_amt_updates soln off init pairs).1 j ≤ 1 := by
  intro pairs
  induction pairs with
  | nil => intro init j h; simp at h
  | cons p rest ih =>
    intro init j hmem
    rw [List.map_cons, List.mem_cons] at hmem
    rcases hmem with h1 | h2
    · subst h1
      refine apply_phase_amt_updates_bounds_pres soln off rest _ p.2 ?_
      dsimp only
      by_cases hlt : p.2 < init.1.length
      · rw [getV, setV, getD_set_self _ _ _ _ hlt]
        exact ⟨le_max_left 0 _, max_le zero_le_one (min_le_left 1 _)⟩
      · rw [getV, setV, List.set_eq_of_length_le (Nat.le_of_not_lt hlt),
          getD_of_length_le _ _ _ (Nat.le_of_not_lt hlt)]
        exact ⟨le_refl 0, zero_le_one⟩
    · exact ih _ j h2

/-! ### Pointwise description of the elemental-amount accumulation -/

theorem foldl_addV_length (g : ℕ → ℚ) (l : List ℕ) (v : List ℚ) :
    (l.foldl (fun w c => addV w c (g c)) v).length = v.length := by
  apply foldl_preserves (fun w : List ℚ => w.length = v.length)
  · intro b a hb
    rw [length_addV, hb]
  · rfl

theorem foldl_addV_getD (g : ℕ → ℚ) : ∀ (C : ℕ) (v : List ℚ) (j : ℕ),
    ((List.range C).foldl (fun w c => addV w c (g c)) v).getD j 0 =
      v.getD j 0 + (if j < C ∧ j < v.length then g j else 0) := by
  intro C
  induction C with
  | zero => intro v j; simp
  | succ C ih =>
    intro v j
    rw [List.range_succ, List.foldl_append, List.foldl_cons, List.foldl_nil]
    have hlen : ((List.range C).foldl (fun w c => addV w c (g c)) v).length = v.length :=
      foldl_addV_length g _ v
    by_cases hj : j = C
    · subst hj
      by_cases hl : j < v.length
      · rw [addV, getD_set_self _ _ _ _ (by rw [hlen]; exact hl), getV, ih]
        simp only [Nat.lt_irrefl, false_and, if_false, add_zero]
        simp [Nat.lt_succ_self, hl]
      · rw [addV, List.set_eq_of_length_le (by rw [hlen]; omega), ih]
        simp only [Nat.lt_irrefl, false_and, if_false, add_zero]
        have : ¬(j < v.length) := hl
        simp [this]
    · rw [addV, getD_set_ne _ _ _ _ _ (fun hcj => hj hcj.symm), ih]
      have hiff : j < C + 1 ↔ j < C := by omega
      simp only [hiff]

theorem internal_step_one_dof (O : Oracles) (S C : ℕ) (chems delta amt : List ℚ)
    (acc : InternalAcc) (p : ℕ × CompositionSet) :
    (internal_step_one O S C chems delta amt acc p).dof =
      acc.dof.set p.1
        (internal_phase_update O S chems delta p.2 (acc.dof.getD p.1 [])).1.1 := rfl

theorem internal_step_one_cea (O : Oracles) (S C : ℕ)
    (chems delta amt : List ℚ) (acc : InternalAcc) (p : ℕ × CompositionSet) (j : ℕ) :
    (internal_step_one O S C chems delta amt acc p).current_elemental_amounts.getD j 0 =
      acc.current_elemental_amounts.getD j 0 +
        (if getV amt p.1 > 0 ∧ j < C ∧ j < acc.current_elemental_amounts.length then
          getV amt p.1 *
            p.2.phase_record.mass_obj
              (internal_phase_update O S chems delta p.2 (acc.dof.getD p.1 [])).1.1 j
         else 0) := by
  unfold internal_step_one
  dsimp only
  by_cases hamt : getV amt p.1 > 0
  · simp only [hamt, if_true]
    rw [foldl_addV_getD (fun c => getV amt p.1 *
      getV ((List.range C).map (fun c => p.2.phase_record.mass_obj
        (internal_phase_update O S chems delta p.2 (acc.dof.getD p.1 [])).1.1 c)) c)
      C acc.current_elemental_amounts j]
    by_cases hjc : j < C ∧ j < acc.current_elemental_amounts.length
    · rw [if_pos hjc, if_pos (⟨trivial, hjc⟩ : True ∧ j < C ∧ j < acc.current_elemental_amounts.length)]
      congr 1
      simp only [getV]
      rw [getD_map_range _ _ _ _ hjc.1]
    · rw [if_neg hjc, if_neg (fun hh => hjc hh.2)]
  · simp only [hamt, if_false]
    rw [foldl_const, if_neg (fun hh => hh.1), add_zero]

theorem internal_step_one_cea_length (O : Oracles) (S C : ℕ)
    (chems delta amt : List ℚ) (acc : InternalAcc) (p : ℕ × CompositionSet) :
    (internal_step_one O S C chems delta amt acc p).current_elemental_amounts.length =
      acc.current_elemental_amounts.length := by
  unfold internal_step_one
  dsimp only
  by_cases hamt : getV amt p.1 > 0
  · simp only [hamt, if_true]
    exact foldl_addV_length _ _ _
  · simp only [hamt, if_false]
    rw [foldl_const]

theorem internal_loop_cea (O : Oracles) (S C : ℕ) (chems delta amt : List ℚ)
    (dof0 : List (List ℚ)) (j : ℕ) (hj : j < C) :
    ∀ (cs : List CompositionSet) (k : ℕ) (acc : InternalAcc),
      acc.current_elemental_amounts.length = C →
      (∀ m, k ≤ m → acc.dof.getD m [] = dof0.getD m []) →
      ((cs.enumFrom k).foldl (internal_step_one O S C chems delta amt)
          acc).current_elemental_amounts.getD j 0 =
        acc.current_elemental_amounts.getD j 0 +
          positive_amt_contributions O S chems delta amt dof0 j k cs := by
  intro cs
  induction cs with
  | nil =>
    intro k acc _ _
    simp [positive_amt_contributions]
  | cons c rest ih =>
    intro k acc hlen hdof
    rw [List.enumFrom_cons, List.foldl_cons]
    rw [ih (k + 1) (internal_step_one O S C chems delta amt acc (k, c)) ?_ ?_]
    · rw [internal_step_one_cea, positive_amt_contributions]
      have hd : acc.dof.getD k [] = dof0.getD k [] := hdof k (le_refl k)
      rw [hd, hlen]
      by_cases hamt : getV amt k > 0
      · rw [if_pos ⟨hamt, hj, hj⟩, if_pos hamt]
        ring
      · rw [if_neg (fun hh => hamt hh.1), if_neg hamt]
        ring
    · rw [internal_step_one_cea_length]
      exact hlen
    · intro m hm
      rw [internal_step_one_dof]
      rw [List.getD_eq_getElem?_getD,
        List.getElem?_set_ne (by omega : k ≠ m), ← List.getD_eq_getElem?_getD]
      exact hdof m (by omega)

/-! ### Characterization of the convergence controller -/

theorem check_mem (cur : List ℕ) (dfs : List ℚ) (ldc lpac lsc : ℚ) (i : ℕ) :
    i ∈ (check_convergence_and_change_phases cur dfs ldc lpac lsc).2 ↔
      (i ∈ cur ∨ (i < dfs.length ∧ getV dfs i > -(1 / 100000))) := by
  unfold check_convergence_and_change_phases
  dsimp only
  rw [List.mem_insertionSort, List.mem_dedup, List.mem_append, List.mem_filter,
    List.mem_range]
  simp [decide_eq_true_eq]

theorem check_converged_iff (cur : List ℕ) (dfs : List ℚ) (ldc lpac lsc : ℚ) :
    (check_convergence_and_change_phases cur dfs ldc lpac lsc).1 = true ↔
      ((∀ i ∈ cur, i ∈ (check_convergence_and_change_phases cur dfs ldc lpac lsc).2) ∧
        ldc < 1 / 100000000000 ∧ lpac < 1 / 10000000000 ∧ lsc < 1 / 10) := by
  have hsub : ∀ i ∈ cur, i ∈ (check_convergence_and_change_phases cur dfs ldc lpac lsc).2 :=
    fun i hi => (check_mem cur dfs ldc lpac lsc i).2 (Or.inl hi)
  rw [and_iff_right hsub]
  unfold check_convergence_and_change_phases
  dsimp only
  split_ifs with hall
  · simp [Bool.and_eq_true, decide_eq_true_eq, and_assoc]
  · exfalso
    apply hall
    rw [List.all_eq_true]
    intro x hx
    rw [decide_eq_true_eq, List.mem_insertionSort, List.mem_dedup, List.mem_append]
    exact Or.inl hx

theorem check_sorted (cur : List ℕ) (dfs : List ℚ) (ldc lpac lsc : ℚ) :
    List.Sorted (· ≤ ·) (check_convergence_and_change_phases cur dfs ldc lpac lsc).2 := by
  unfold check_convergence_and_change_phases
  dsimp only
  exact List.sorted_insertionSort _ _

/-! ### Remaining concrete fixtures -/

/-- A condition set violating the Gibbs phase rule: one stable phase and no
prescribed amounts (2 equations) against 3 free variables. -/
def badCond : Conditions :=
  { oneCond with free_statevar_indices := [0], fixed_statevar_indices := [] }

/-- The (explicit) result of one `run_iteration` of `zeroOracles` on the
single-compset fixture: the state is returned unchanged, with mass residual
`1/2` (infeasible) and zero constraint residual. -/
def fixedIterResult : IterResult :=
  { state := initial_state [oneCompset] [0] oneCond
    mass_residual := 1/2
    largest_internal_cons_max_residual := 0
    equilibrium_matrix := [[1, 0], [0, 1]] }

deriving instance DecidableEq for Except

/-! ### Claim theorems -/

/-- Claim C1 (code-bug evaluation): at a concrete input where a metastable
phase precedes the only stable one (`free_stable_compset_indices = [1]`, so the
processed phase has `idx = 1` but `stable_idx = 0`),
`fill_equilibrium_system_for_phase` writes the phase energy `5` into
`equilibrium_rhs[idx] = equilibrium_rhs[1]` — a fixed-component row, whose
accumulated value it overwrites — and leaves the phase row
`equilibrium_rhs[stable_idx] = equilibrium_rhs[0]` at `0`.  The claim (and the
source's own step-4 comment together with the phase-row matrix writes, which do
use `stable_idx`) require the energy in row `stable_idx`. -/
theorem energy_rhs_written_at_compset_index :
    (fill_equilibrium_system_for_phase (zeros2 3 3, List.replicate 3 0)
        5 [0, 0] [[0, 0], [0, 0]] [[1]] [[0, 0]] [[0]] [0] [0, 1]
        [0] [] [1] [] [0] [1] 1 0 1).2 = [0, 5, 0] ∧ (5 : ℚ) ≠ 0 := by
  exact ⟨by decide, by norm_num⟩

/-- Claim C2 counterexample: `find_solution` reads `NP` and `dof` into local
copies (lines 312-313, `np.array(...)` copies) and never assigns any
composition-set attribute, so the composition sets are unchanged on return.  In
this concrete converging run the solver's final phase amount is `1` (the last
entry of the returned packed vector) while the composition set still carries
`NP = 1/2`: the solution is not readable from the composition sets, refuting
the claim. -/
theorem find_solution_compsets_unchanged_cex :
    find_solution stepOracles [oneCompset] [0] oneCond = .ok (true, [1, 1/2, 1], [0]) ∧
      [oneCompset].map (fun c => c.NP) = [1/2] ∧ ((1 : ℚ) ≠ 1/2) := by
  refine ⟨by decide, by decide, by norm_num⟩

/-- Claim C2 (amended): the solver's state is initialized from copies of the
composition sets' `NP` and `dof` (`initial_state`), and whenever
`find_solution` returns, its outputs are exactly the packed final loop state —
the returned triple, not the (never written) composition sets, carries the
solution. -/
theorem find_solution_returns_packed_loop_state (O : Oracles)
    (compsets : List CompositionSet) (fs0 : List ℕ) (cond : Conditions)
    (c : Bool) (x μ : List ℚ)
    (h : find_solution O compsets fs0 cond = .ok (c, x, μ)) :
    ∃ s n, find_solution_loop O compsets cond 100 (initial_state compsets fs0 cond, 0) =
        .ok (s, n) ∧ c = s.converged ∧
        x = pack_solution cond.num_statevars s.dof s.phase_amt ∧
        μ = s.chemical_potentials := by
  unfold find_solution at h
  cases hl : find_solution_loop O compsets cond 100 (initial_state compsets fs0 cond, 0) with
  | error e => rw [hl] at h; cases h
  | ok p =>
    obtain ⟨s, n⟩ := p
    rw [hl] at h
    simp only [Except.ok.injEq, Prod.mk.injEq] at h
    exact ⟨s, n, rfl, h.1.symm, h.2.1.symm, h.2.2.symm⟩

/-- Witness for the amended C2 theorem at the concrete converging run. -/
theorem find_solution_returns_packed_loop_state_witness :
    ∃ s n, find_solution_loop stepOracles [oneCompset] oneCond 100
        (initial_state [oneCompset] [0] oneCond, 0) = .ok (s, n) ∧
      true = s.converged ∧
      [1, 1/2, 1] = pack_solution oneCond.num_statevars s.dof s.phase_amt ∧
      [0] = s.chemical_potentials :=
  find_solution_returns_packed_loop_state stepOracles [oneCompset] [0] oneCond
    true [1, 1/2, 1] [0] (by decide)

/-- Claim C8 counterexample: with two composition sets of amount `1/2` each and
active set `[0]`, the internal-DOF update step accumulates `1` into
`current_elemental_amounts` (both sets contribute, because both amounts are
positive — line 353 tests `phase_amt[idx] > 0`, not membership in
`free_stable_compset_indices`), while the claim's active-set-only sum is
`1/2`. -/
theorem mass_accumulation_not_active_set_cex :
    (internal_update_step zeroOracles 1 1 [0] [0] [1/2, 1/2] [oneCompset, oneCompset]
        [[1, 1/2], [1, 1/2]]).current_elemental_amounts = [1] ∧
      claimed_stable_only_total zeroOracles 1 [0] [0] [1/2, 1/2] [[1, 1/2], [1, 1/2]] 0 [0]
        [oneCompset, oneCompset] = 1/2 ∧
      (1 : ℚ) ≠ 1/2 := by
  refine ⟨by decide, by decide, by norm_num⟩

/-- Claim C8 (amended): during the internal-DOF update step,
`current_elemental_amounts[comp]` accumulates exactly the contributions
`phase_amt[idx] * mass[idx, comp]` of the composition sets whose phase amount
is strictly positive — membership in `free_stable_compset_indices` plays no
role in the accumulation. -/
theorem mass_accumulation_positive_amount (O : Oracles) (S C : ℕ)
    (chems delta amt : List ℚ) (compsets : List CompositionSet)
    (dof0 : List (List ℚ)) (j : ℕ) (hj : j < C) :
    (internal_update_step O S C chems delta amt compsets
        dof0).current_elemental_amounts.getD j 0 =
      positive_amt_contributions O S chems delta amt dof0 j 0 compsets := by
  unfold internal_update_step
  rw [show compsets.enum = compsets.enumFrom 0 from rfl]
  rw [internal_loop_cea O S C chems delta amt dof0 j hj compsets 0 _ (by simp)
    (fun m _ => rfl)]
  have hz : (List.replicate C (0 : ℚ)).getD j 0 = 0 := by
    by_cases h : j < C <;>
      simp [List.getD_eq_getElem?_getD, List.getElem?_replicate, h]
  rw [hz, zero_add]

/-- Witness for the amended C8 theorem at the two-compset fixture. -/
theorem mass_accumulation_positive_amount_witness :
    (internal_update_step zeroOracles 1 1 [0] [0] [1/2, 1/2] [oneCompset, oneCompset]
        [[1, 1/2], [1, 1/2]]).current_elemental_amounts.getD 0 0 =
      positive_amt_contributions zeroOracles 1 [0] [0] [1/2, 1/2] [[1, 1/2], [1, 1/2]]
        0 0 [oneCompset, oneCompset] :=
  mass_accumulation_positive_amount zeroOracles 1 1 [0] [0] [1/2, 1/2]
    [oneCompset, oneCompset] [[1, 1/2], [1, 1/2]] 0 (by decide)

/-- Claim C10: the chemical-potential relative change of lines 268-269 divides
by the current potential with no zero guard — whenever that potential is zero
the value folded into the tracker is non-finite (`inf`, or NaN when the change
is also zero) — whereas the state-variable relative changes of lines 287-288 on
the same path have their NaN entries explicitly masked to zero, so they are
never NaN. -/
theorem unguarded_chempot_relative_change :
    (∀ soln : ℚ, (percent_chempot_change (FP.num soln) (FP.num 0)).isFinite = false) ∧
    (∀ delta sv : FP, (masked_percent_statevar_change delta sv).isNaN = false) := by
  constructor
  · intro soln
    show (FP.abs (FP.div (FP.sub (FP.num soln) (FP.num 0)) (FP.num 0))).isFinite = false
    simp only [FP.sub, sub_zero]
    by_cases h0 : soln = 0
    · simp [FP.div, h0, FP.abs, FP.isFinite]
    · by_cases hpos : soln > 0
      · simp [FP.div, h0, hpos, FP.abs, FP.isFinite]
      · simp [FP.div, h0, hpos, FP.abs, FP.isFinite]
  · intro delta sv
    unfold masked_percent_statevar_change
    dsimp only
    by_cases h : FP.abs (FP.div delta sv) = FP.nan
    · rw [if_pos h]; rfl
    · rw [if_neg h]
      cases hval : FP.abs (FP.div delta sv) with
      | num q => rfl
      | inf => rfl
      | neginf => rfl
      | nan => exact absurd hval h

/-- Claim C3: every iteration enforces the Gibbs-phase-rule square-system
invariant.  When the equation count (stable phases + prescribed elements + 1)
differs from the free-variable count, the iteration raises the fatal
`ValueError` before the global system is assembled or solved; when the counts
agree, no such error is raised and the global matrix assembled by the iteration
is square (`num_equations` rows of length `num_free_variables`). -/
theorem gibbs_phase_rule_square_system (O : Oracles) (compsets : List CompositionSet)
    (cond : Conditions) (s : SolverState) :
    (num_equations cond s ≠ num_free_variables cond s →
      run_iteration O compsets cond s = .error gibbs_rule_violation_msg) ∧
    (num_equations cond s = num_free_variables cond s →
      ∃ r, run_iteration O compsets cond s = .ok r ∧
        r.equilibrium_matrix.length = num_equations cond s ∧
        (∀ row ∈ r.equilibrium_matrix, row.length = num_free_variables cond s) ∧
        num_equations cond s = num_free_variables cond s) := by
  constructor
  · intro hne
    unfold run_iteration
    rw [if_pos hne]
  · intro heq
    unfold run_iteration
    rw [if_neg (fun hh => hh heq)]
    refine ⟨_, rfl, ?_, ?_, heq⟩
    · exact (iter_filled_system_shape O compsets cond s).1.1
    · exact (iter_filled_system_shape O compsets cond s).1.2

/-- Witness for C3: the Gibbs-violating fixture raises the error, the square
fixture runs without it and assembles a square matrix. -/
theorem gibbs_phase_rule_square_system_witness :
    run_iteration zeroOracles [oneCompset] badCond
        (initial_state [oneCompset] [0] badCond) = .error gibbs_rule_violation_msg ∧
      ∃ r, run_iteration zeroOracles [oneCompset] oneCond
          (initial_state [oneCompset] [0] oneCond) = .ok r ∧
        r.equilibrium_matrix.length =
          num_equations oneCond (initial_state [oneCompset] [0] oneCond) ∧
        (∀ row ∈ r.equilibrium_matrix,
          row.length = num_free_variables oneCond (initial_state [oneCompset] [0] oneCond)) ∧
        num_equations oneCond (initial_state [oneCompset] [0] oneCond) =
          num_free_variables oneCond (initial_state [oneCompset] [0] oneCond) := by
  constructor
  · exact (gibbs_phase_rule_square_system zeroOracles [oneCompset] badCond _).1 (by decide)
  · exact (gibbs_phase_rule_square_system zeroOracles [oneCompset] oneCond _).2 (by decide)

/-- Claim C4: every returning call of the loop executes at most 100 outer
iterations; if moreover the convergence predicate never held (the final
`converged` is `false`), all 100 iterations were executed and `find_solution`
still returns normally, with `converged = false` and the last iterate. -/
theorem find_solution_iteration_bound (O : Oracles) (compsets : List CompositionSet)
    (fs0 : List ℕ) (cond : Conditions) (s' : SolverState) (n' : ℕ)
    (h : find_solution_loop O compsets cond 100 (initial_state compsets fs0 cond, 0) =
      .ok (s', n')) :
    n' ≤ 100 ∧
      (s'.converged = false →
        n' = 100 ∧
          find_solution O compsets fs0 cond =
            .ok (false, pack_solution cond.num_statevars s'.dof s'.phase_amt,
              s'.chemical_potentials)) := by
  have hle := loop_count_le O compsets cond 100 _ 0 s' n' h
  refine ⟨by omega, fun hc => ?_⟩
  have hex := loop_count_exact O compsets cond 100 _ 0 s' n' h hc
  refine ⟨by omega, ?_⟩
  unfold find_solution
  rw [h]
  dsimp only
  rw [hc]

/-- Witness for C4 at the non-converging fixed-point run: all 100 iterations
execute and the call still returns `converged = false` with the last iterate. -/
theorem find_solution_iteration_bound_witness :
    100 ≤ 100 ∧
      ((initial_state [oneCompset] [0] oneCond).converged = false →
        100 = 100 ∧
          find_solution zeroOracles [oneCompset] [0] oneCond =
            .ok (false,
              pack_solution oneCond.num_statevars
                (initial_state [oneCompset] [0] oneCond).dof
                (initial_state [oneCompset] [0] oneCond).phase_amt,
              (initial_state [oneCompset] [0] oneCond).chemical_potentials)) := by
  apply find_solution_iteration_bound
  have h := loop_fixed_point zeroOracles [oneCompset] oneCond
    (initial_state [oneCompset] [0] oneCond) fixedIterResult (by decide) (by decide)
    rfl 100 0
  simpa using h

/-- Claim C5: the clipping invariants.  (a) Every phase amount written by
`extract_equilibrium_solution` (the positions listed in
`free_stable_compset_indices`) lies in `[0, 1]` after the update; (b) every
internal site fraction produced by the internal-DOF update's clip lies in
`[MIN_SITE_FRACTION, 1]`, at every iteration and phase (both functions are
applied with fresh arguments each iteration). -/
theorem clipping_invariants :
    (∀ (chems amt delta : List ℚ) (fcpi fsvi fsci : List ℕ) (soln : List ℚ)
        (lsc lpac : ℚ) (dof : List (List ℚ)) (j : ℕ), j ∈ fsci →
      0 ≤ getV (extract_equilibrium_solution chems amt delta fcpi fsvi fsci soln
            lsc lpac dof).phase_amt j ∧
        getV (extract_equilibrium_solution chems amt delta fcpi fsvi fsci soln
            lsc lpac dof).phase_amt j ≤ 1) ∧
    (∀ (ys : List ℚ) (v : ℚ), v ∈ clip_site_fractions ys →
      MIN_SITE_FRACTION ≤ v ∧ v ≤ 1) := by
  constructor
  · intro chems amt delta fcpi fsvi fsci soln lsc lpac dof j hj
    have hmem : j ∈ fsci.enum.map Prod.snd := by
      rw [show fsci.enum = fsci.enumFrom 0 from rfl, List.enumFrom_map_snd]
      exact hj
    exact apply_phase_amt_updates_bounds soln fcpi.length fsci.enum (amt, lpac) j hmem
  · intro ys v hv
    simp only [clip_site_fractions, List.mem_map] at hv
    obtain ⟨u, ⟨w, hw, rfl⟩, rfl⟩ := hv
    have hMSF1 : MIN_SITE_FRACTION ≤ (1 : ℚ) := by norm_num [MIN_SITE_FRACTION]
    by_cases hb : (if w < MIN_SITE_FRACTION then MIN_SITE_FRACTION else w) > 1
    · rw [if_pos hb]
      exact ⟨hMSF1, le_refl 1⟩
    · rw [if_neg hb]
      refine ⟨?_, not_lt.1 hb⟩
      by_cases hw2 : w < MIN_SITE_FRACTION
      · rw [if_pos hw2]
      · rw [if_neg hw2]
        exact not_lt.1 hw2

/-- Witness for C5 at concrete writes: position `0` (after an over-large
increment) is clipped into `[0, 1]`, and the over-large entry `2` of a
site-fraction vector is clipped to `1 ∈ [MIN_SITE_FRACTION, 1]`. -/
theorem clipping_invariants_witness :
    (0 ≤ getV (extract_equilibrium_solution [0] [1/2] [0] [0] [] [0] [0, 3] 0 0
          [[1, 1/2]]).phase_amt 0 ∧
        getV (extract_equilibrium_solution [0] [1/2] [0] [0] [] [0] [0, 3] 0 0
          [[1, 1/2]]).phase_amt 0 ≤ 1) ∧
      (MIN_SITE_FRACTION ≤ (1 : ℚ) ∧ (1 : ℚ) ≤ 1) :=
  ⟨clipping_invariants.1 [0] [1/2] [0] [0] [] [0] [0, 3] 0 0 [[1, 1/2]] 0 (by decide),
    clipping_invariants.2 [2, -1, 1/2] 1 (by decide)⟩

/-- Claim C6: `check_convergence_and_change_phases` declares convergence
exactly when the set difference current - new is empty (no removals: every
current member is in the returned set) and the three change trackers are
strictly below `1e-11`, `1e-10` and `1e-1`; otherwise it returns `false`. -/
theorem convergence_predicate_characterization (cur : List ℕ) (dfs : List ℚ)
    (ldc lpac lsc : ℚ) :
    (check_convergence_and_change_phases cur dfs ldc lpac lsc).1 = true ↔
      ((∀ i ∈ cur, i ∈ (check_convergence_and_change_phases cur dfs ldc lpac lsc).2) ∧
        ldc < 1 / 100000000000 ∧ lpac < 1 / 10000000000 ∧ lsc < 1 / 10) :=
  check_converged_iff cur dfs ldc lpac lsc

/-- Witness applying C6 at a concrete call. -/
theorem convergence_predicate_characterization_witness :
    (check_convergence_and_change_phases [0] [1] 0 0 0).1 = true :=
  (convergence_predicate_characterization [0] [1] 0 0 0).2
    ⟨by decide, by norm_num, by norm_num, by norm_num⟩

/-- Claim C7: an iteration that fails the feasibility gate (mass residual at
least `1e-5` or internal-constraint residual at least `1e-10`) leaves the
active set `free_stable_compset_indices` unchanged and does not declare
convergence (the `converged` flag keeps its entry value, which is `false` at
the entry of every executed iteration). -/
theorem infeasible_iteration_frame (O : Oracles) (compsets : List CompositionSet)
    (cond : Conditions) (s : SolverState) (r : IterResult)
    (h : run_iteration O compsets cond s = .ok r)
    (hres : 1 / 100000 ≤ r.mass_residual ∨
      1 / 10000000000 ≤ r.largest_internal_cons_max_residual) :
    r.state.free_stable_compset_indices = s.free_stable_compset_indices ∧
      r.state.converged = s.converged := by
  unfold run_iteration at h
  by_cases hsq : num_equations cond s ≠ num_free_variables cond s
  · rw [if_pos hsq] at h
    cases h
  · rw [if_neg hsq] at h
    have hr := Except.ok.inj h
    rw [← hr] at hres
    rw [← hr]
    dsimp only at hres ⊢
    unfold iter_state
    dsimp only
    rw [if_neg ?hfeas]
    case hfeas =>
      intro hfeas
      rcases hres with h1 | h2
      · exact absurd hfeas.1 (not_lt.2 h1)
      · exact absurd hfeas.2 (not_lt.2 h2)
    exact ⟨rfl, rfl⟩

/-- Witness for C7: the fixed-point run has mass residual `1/2 ≥ 1e-5`, and
indeed neither the active set nor the convergence flag changes. -/
theorem infeasible_iteration_frame_witness :
    fixedIterResult.state.free_stable_compset_indices =
        (initial_state [oneCompset] [0] oneCond).free_stable_compset_indices ∧
      fixedIterResult.state.converged =
        (initial_state [oneCompset] [0] oneCond).converged :=
  infeasible_iteration_frame zeroOracles [oneCompset] oneCond
    (initial_state [oneCompset] [0] oneCond) fixedIterResult (by decide)
    (Or.inl (by norm_num [fixedIterResult]))

/-- Claim C9: the new active set returned by
`check_convergence_and_change_phases` is the sorted duplicate-free union of the
current set with the phases whose driving force exceeds `-1e-5`; it is always a
superset of the current set, so the internal no-removal test passes on every
call and the convergence flag is decided by the three tolerance bounds alone. -/
theorem active_set_superset_no_removal (cur : List ℕ) (dfs : List ℚ)
    (ldc lpac lsc : ℚ) :
    (∀ i, i ∈ (check_convergence_and_change_phases cur dfs ldc lpac lsc).2 ↔
        (i ∈ cur ∨ (i < dfs.length ∧ getV dfs i > -(1 / 100000)))) ∧
      (∀ i ∈ cur, i ∈ (check_convergence_and_change_phases cur dfs ldc lpac lsc).2) ∧
      List.Sorted (· ≤ ·) (check_convergence_and_change_phases cur dfs ldc lpac lsc).2 ∧
      ((check_convergence_and_change_phases cur dfs ldc lpac lsc).1 = true ↔
        (ldc < 1 / 100000000000 ∧ lpac < 1 / 10000000000 ∧ lsc < 1 / 10)) := by
  have hsub : ∀ i ∈ cur, i ∈ (check_convergence_and_change_phases cur dfs ldc lpac lsc).2 :=
    fun i hi => (check_mem cur dfs ldc lpac lsc i).2 (Or.inl hi)
  refine ⟨check_mem cur dfs ldc lpac lsc, hsub, check_sorted cur dfs ldc lpac lsc, ?_⟩
  rw [check_converged_iff, and_iff_right hsub]

/-- Witness applying C9 at a concrete call with a phase (index 0) admitted by
driving force to an active set that did not contain it. -/
theorem active_set_superset_no_removal_witness :
    2 ∈ (check_convergence_and_change_phases [2] [1, -1] 0 0 0).2 ∧
      (check_convergence_and_change_phases [2] [1, -1] 0 0 0).1 = true :=
  ⟨(active_set_superset_no_removal [2] [1, -1] 0 0 0).2.1 2 (by decide),
    (active_set_superset_no_removal [2] [1, -1] 0 0 0).2.2.2.2
      ⟨by norm_num, by norm_num, by norm_num⟩⟩

end Minimizer
